import Mathlib

/-!
# Verification of the BorgHelper command-dispatch engine

A shallow embedding, in Lean 4, of `borg-helper.py`: a CLI front end that
loads layered JSON configuration files, resolves command aliases
(repository-scoped then global), assembles an environment and a single
shell command line for the external `borg` binary, and implements two
composite subcommands (`list-archives`, `list-removed-items`) that issue
several subprocess dispatches and aggregate exit codes.

Python dictionaries are modelled as insertion-ordered association lists
with unique-key-preserving updates (`dictSet`), matching CPython `dict`
semantics for insertion, overwrite and iteration order.  Subprocess
execution and the interactive confirmation prompt are modelled by an
explicit per-call context (`CallCtx`): the answer `input()` would return,
and the return code and (already decoded/parsed) stdout the subprocess
would produce.  Every dispatch additionally reports the list of
subprocess invocations it actually performed.
-/

namespace BorgHelper

/-- A Python `dict` with string keys: an insertion-ordered association list. -/
abbrev Dict (α : Type) := List (String × α)

/-- First-match lookup, i.e. `d[k]` / `k in d` for a Python dict
(whose keys are unique by construction). -/
def dlookup (k : String) : Dict α → Option α
  | [] => none
  | (k1, v) :: rest => if k1 = k then some v else dlookup k rest

/-- `d[k] = v` on a Python dict: overwrite the value in place if the key is
present, otherwise append the new binding (CPython insertion order). -/
def dictSet (d : Dict α) (k : String) (v : α) : Dict α :=
  if d.any (fun p => p.1 = k) then
    d.map (fun p => if p.1 = k then (k, v) else p)
  else
    d ++ [(k, v)]

/-- `d.update(cfg)`: fold the entries of `cfg` into `d`, left to right. -/
def dictUpdate (d cfg : Dict α) : Dict α :=
  cfg.foldl (fun acc p => dictSet acc p.1 p.2) d

/-- Python `str.split(sep)` for a single-character separator, on the
character list: split at every separator occurrence, keeping empty
pieces (`"a  b".split(" ") == ["a", "", "b"]`, `"".split(" ") == [""]`). -/
def splitChars (sep : Char) : List Char → List (List Char)
  | [] => [[]]
  | c :: rest =>
    if c = sep then
      [] :: splitChars sep rest
    else
      match splitChars sep rest with
      | [] => [[c]]
      | g :: gs => (c :: g) :: gs

/-- Python `value.split(" ")`: split the string on every single space. -/
def pySplitSpace (s : String) : List String :=
  (splitChars ' ' s.toList).map (fun cs => String.mk cs)

/--
`resolve_alias(arguments, aliases)` from the source: on an empty list return
the empty list; otherwise, if `arguments[0]` is a key of `aliases`, return the
alias value split on single spaces (Python `str.split(" ")`) concatenated
with `arguments[1:]`; otherwise return `arguments` unchanged.
-/
def resolve_alias (arguments : List String) (aliases : Dict String) : List String :=
  match arguments with
  | [] => []
  | command :: rest =>
    match dlookup command aliases with
    | none => command :: rest
    | some value => pySplitSpace value ++ rest

/-- A JSON value as it occurs inside a repository entry of a config file:
the schema uses strings (`repository`, `passphrase`, `ssh_key`) and one
string-to-string table (`aliases`). -/
inductive ConfigValue where
  | str (s : String)
  | table (t : Dict String)
  deriving DecidableEq

/-- The mutable state of the `BorgHelper` object (`__init__`): the
confirmation flag, the borg binary (default `"borg"`), the repository
table and the global command-alias table. -/
structure HelperState where
  ask_before_execute : Bool
  borg_binary : String
  repositories : Dict (Dict ConfigValue)
  command_aliases : Dict String
  deriving DecidableEq

/-- The state right after `BorgHelper.__init__`. -/
def initState : HelperState :=
  { ask_before_execute := false
    borg_binary := "borg"
    repositories := []
    command_aliases := [] }

/-- `add_alias(name, value)`: store the alias in the global table. -/
def add_alias (st : HelperState) (name value : String) : HelperState :=
  { st with command_aliases := dictSet st.command_aliases name value }

/-- `add_repository(name, config)`: create the (possibly empty) entry if
absent, then `dict.update` it with the fields of `config`. -/
def add_repository (st : HelperState) (name : String)
    (config : Dict ConfigValue) : HelperState :=
  { st with
    repositories :=
      dictSet st.repositories name
        (dictUpdate ((dlookup name st.repositories).getD []) config) }

/-- One successfully parsed JSON config document: an optional
`borg_binary` override, an `aliases` table and a `repositories` table. -/
structure ConfigFile where
  borg_binary : Option String
  aliases : Dict String
  repositories : Dict (Dict ConfigValue)
  deriving DecidableEq

/-- The body of `load_config` on a parsed document: apply the
`borg_binary` override, then `add_alias` for each alias, then
`add_repository` for each repository entry, in file order. -/
def applyConfig (st : HelperState) (c : ConfigFile) : HelperState :=
  let st1 := match c.borg_binary with
    | some b => { st with borg_binary := b }
    | none => st
  let st2 := c.aliases.foldl (fun s p => add_alias s p.1 p.2) st1
  c.repositories.foldl (fun s p => add_repository s p.1 p.2) st2

/-- What opening and parsing one candidate config path can yield:
the file is missing (`FileNotFoundError`), it exists but is not valid
JSON (`json.JSONDecodeError`), or it parses to a document. -/
inductive FileContent where
  | missing
  | invalid
  | valid (c : ConfigFile)
  deriving DecidableEq

/-- The fault that escapes `load_config` on a malformed file: only
`FileNotFoundError` is caught, so the JSON decode error propagates. -/
inductive LoadFault where
  | jsonDecodeError
  deriving DecidableEq

/-- `load_config(path)`: a missing file is skipped (the
`FileNotFoundError` handler logs at debug level and the method returns
normally); a malformed file raises the uncaught decode error; a parsed
file is merged into the state. -/
def load_config (st : HelperState) (f : FileContent) :
    Except LoadFault HelperState :=
  match f with
  | .missing => .ok st
  | .invalid => .error .jsonDecodeError
  | .valid c => .ok (applyConfig st c)

/-- `load_configs`: load every candidate path in order; a raised decode
error aborts the whole loop, so no later source is loaded. -/
def load_configs (st : HelperState) : List FileContent → Except LoadFault HelperState
  | [] => .ok st
  | f :: fs =>
    match load_config st f with
    | .ok st2 => load_configs st2 fs
    | .error e => .error e

/-- Loading an ordered list of successfully parsed config documents:
`load_configs` restricted to files that exist and parse. -/
def apply_configs (st : HelperState) (cs : List ConfigFile) : HelperState :=
  cs.foldl applyConfig st

/-- The repository names a config source touches. -/
def repoNames (c : ConfigFile) : List String :=
  c.repositories.map Prod.fst

/-- The cumulative effect of one source's repository entries on the
profile stored under the name `n`: each entry for `n` is merged into the
profile (creating it from the empty dict if absent); entries for other
names leave it alone. -/
def applyEntriesAt (entries : Dict (Dict ConfigValue)) (n : String)
    (o : Option (Dict ConfigValue)) : Option (Dict ConfigValue) :=
  entries.foldl
    (fun acc p => if p.1 = n then some (dictUpdate (acc.getD []) p.2) else acc)
    o

/-- `repository_config.get("aliases", {})`: the per-repository alias
table, empty when the field is absent (a non-table value is outside the
config schema and also yields no usable table). -/
def configAliases (cfg : Dict ConfigValue) : Dict String :=
  match dlookup "aliases" cfg with
  | some (.table t) => t
  | _ => []

/-- Lines 102–104 of the source: when the argument list is non-empty it is
passed through `resolve_alias` twice — first against the repository's own
alias table, then against the global one; an empty list is left alone. -/
def dispatch_arguments (st : HelperState) (cfg : Dict ConfigValue)
    (arguments : List String) : List String :=
  if arguments.length ≠ 0 then
    resolve_alias (resolve_alias arguments (configAliases cfg)) st.command_aliases
  else
    arguments

/-- The environment overlay of `execute_borg`: start from a copy of the
process environment, then set `BORG_REPO`, `BORG_PASSPHRASE` and
`BORG_RSH` from the fields that are present (string-valued, per the
schema). -/
def build_env (env0 : Dict String) (cfg : Dict ConfigValue) : Dict String :=
  let e1 := match dlookup "repository" cfg with
    | some (.str v) => dictSet env0 "BORG_REPO" v
    | _ => env0
  let e2 := match dlookup "passphrase" cfg with
    | some (.str v) => dictSet e1 "BORG_PASSPHRASE" v
    | _ => e1
  match dlookup "ssh_key" cfg with
  | some (.str v) => dictSet e2 "BORG_RSH" ("ssh -i \x27" ++ v ++ "\x27")
  | _ => e2

/-- What the outside world would contribute to one `execute_borg` call:
the string `input()` would return at the confirmation prompt, and the
return code and (already decoded and parsed) stdout the subprocess would
produce.  `σ` is the shape of the captured stdout: a list of lines for
`list --short`, parsed archive names for `list --json`, parsed diff
records for `diff --json-lines`, and `Unit` when stdout is not captured. -/
structure CallCtx (σ : Type) where
  answer : String
  returncode : Nat
  stdout : σ
  deriving DecidableEq

/-- One actual subprocess invocation: `subprocess.run(command_line,
env=borg_env, shell=True)` — a single shell-interpreted command string,
never an argument vector. -/
structure Invocation where
  command_line : String
  env : Dict String
  shell : Bool
  deriving DecidableEq

/-- `subprocess.CompletedProcess`, restricted to what the program reads. -/
structure CompletedProcess (σ : Type) where
  returncode : Nat
  stdout : σ
  deriving DecidableEq

/-- The exceptions that can escape a command: `ConfigError` (unknown
repository, raised before any subprocess), `subprocess.CalledProcessError`
(a `check=True` call returned non-zero), and `SystemExit` (the
`list-removed-items` argument parser exited — help or usage error —
before any dispatch; `main` catches none of it besides `ConfigError`). -/
inductive Fault where
  | configError (msg : String)
  | calledProcessError (returncode : Nat)
  | systemExit (code : Nat)
  deriving DecidableEq

/-- Python `answer.lower().startswith("n")`: the first character of the
answer, lowercased, is `n` (lowercasing the other characters cannot
affect a one-character test at position 0). -/
def answerIsNo (answer : String) : Bool :=
  match answer.toList.map Char.toLower with
  | [] => false
  | c :: _ => c = 'n'

/-- The confirmation gate of `execute_borg`: the prompt is shown only when
`ask_before_execute` is set, and any answer whose lowercasing starts with
`n` aborts the call. -/
def aborts (st : HelperState) (answer : String) : Bool :=
  st.ask_before_execute && answerIsNo answer

/-- The command line of line 106–107: the binary and the resolved
arguments joined with single spaces. -/
def commandLine (st : HelperState) (cfg : Dict ConfigValue)
    (arguments : List String) : String :=
  String.intercalate " " (st.borg_binary :: dispatch_arguments st cfg arguments)

/-- The invocation `execute_borg` performs when it is not aborted. -/
def borgInvocation (st : HelperState) (env0 : Dict String)
    (cfg : Dict ConfigValue) (arguments : List String) : Invocation :=
  { command_line := commandLine st cfg arguments
    env := build_env env0 cfg
    shell := true }

/--
`execute_borg(repository_name, arguments, **kwargs)`.  Returns the Python
result — `None` when the user declined the prompt, the completed process
otherwise — or the escaping exception, together with the list of
subprocess invocations actually performed.  `check` mirrors the
`check=True` keyword: a non-zero return code then raises
`CalledProcessError` (after the subprocess has run).
-/
def execute_borg (st : HelperState) (env0 : Dict String)
    (repository_name : String) (arguments : List String) (check : Bool)
    (ctx : CallCtx σ) :
    Except Fault (Option (CompletedProcess σ)) × List Invocation :=
  match dlookup repository_name st.repositories with
  | none => (.error (.configError ("Unknown repository: " ++ repository_name)), [])
  | some cfg =>
    if aborts st ctx.answer then
      (.ok none, [])
    else
      let inv := borgInvocation st env0 cfg arguments
      if check = true ∧ ctx.returncode ≠ 0 then
        (.error (.calledProcessError ctx.returncode), [inv])
      else
        (.ok (some { returncode := ctx.returncode, stdout := ctx.stdout }), [inv])

/-- The `for archive in ... splitlines()` loop of `list-archives`
(lines 129–134): dispatch `list ::<archive>` plus the extra arguments for
every archive in order, skip aborted dispatches (`continue`), and keep
the highest return code seen. -/
def list_archives_loop (st : HelperState) (env0 : Dict String)
    (repository_name : String) (extraArgs : List String)
    (perCtx : String → CallCtx Unit) (archives : List String)
    (acc : Except Fault Nat × List Invocation) :
    Except Fault Nat × List Invocation :=
  archives.foldl
    (fun acc archive =>
      match acc with
      | (.error e, invsAcc) => (.error e, invsAcc)
      | (.ok highest_exit_code, invsAcc) =>
        match execute_borg st env0 repository_name
            (["list", "::" ++ archive] ++ extraArgs) false (perCtx archive) with
        | (.error e, invs2) => (.error e, invsAcc ++ invs2)
        | (.ok none, invs2) => (.ok highest_exit_code, invsAcc ++ invs2)
        | (.ok (some p), invs2) =>
          (.ok (max highest_exit_code p.returncode), invsAcc ++ invs2))
    acc

/-- `execute_borg(name, ["list", "--short"], stdout=PIPE, check=True)`
followed by the per-archive fan-out loop of `list-archives`
(lines 122–136): track the highest return code, skip aborted dispatches,
attempt every archive in listing order. -/
def execute_list_archives (st : HelperState) (env0 : Dict String)
    (repository_name : String) (extraArgs : List String)
    (listCtx : CallCtx (List String)) (perCtx : String → CallCtx Unit) :
    Except Fault Nat × List Invocation :=
  match execute_borg st env0 repository_name ["list", "--short"] true listCtx with
  | (.error e, invs) => (.error e, invs)
  | (.ok none, invs) => (.ok 1, invs)
  | (.ok (some proc), invs) =>
    list_archives_loop st env0 repository_name extraArgs perCtx proc.stdout
      (.ok 0, invs)

/-- The per-archive exit codes `list-archives` aggregates: the return
codes of the non-aborted per-archive dispatches, in listing order. -/
def archiveCodes (st : HelperState) (perCtx : String → CallCtx Unit)
    (archives : List String) : List Nat :=
  (archives.filter (fun a => !(aborts st (perCtx a).answer))).map
    (fun a => (perCtx a).returncode)

/-- One structured record of `borg diff --json-lines`, restricted to what
the program reads: the `path` field and the `type` field of each entry of
the `changes` list. -/
structure DiffLine where
  path : String
  changes : List String
  deriving DecidableEq

/-- The `list-removed-items` subcommand options produced by its argument
parser: `--fail`, `--color` and the optional positional path. -/
structure RemovedOptions where
  fail : Bool
  color : Bool
  path : Option String
  deriving DecidableEq

/-- Whether `argparse` treats a token as an optional (flag-like)
argument: it starts with `-` and is not the bare `-`. -/
def isOptionToken (a : String) : Bool :=
  (match a.toList with
   | [] => false
   | c :: _ => c = '-') && a != "-"

/-- The `argparse` parser declared for `list-removed-items`
(lines 138–143), including its exit behavior, which fires before any
dispatch: `--help`/`-h` prints help and raises `SystemExit(0)`; any
other unrecognized option, or more than one positional, prints usage and
raises `SystemExit(2)`; otherwise `--fail` and `--color` set their flags
and the single positional, if any, is the path.  (Argparse corner cases
— option abbreviation, `--`, `--opt=value` — are outside the modelled
invocations.) -/
def parse_removed_args (args : List String) : Except Nat RemovedOptions :=
  if args.contains "--help" || args.contains "-h" then
    .error 0
  else if args.any (fun a => isOptionToken a && a != "--fail" && a != "--color") then
    .error 2
  else
    let positionals := args.filter (fun a => !isOptionToken a)
    if positionals.length > 1 then
      .error 2
    else
      .ok { fail := args.contains "--fail"
            color := args.contains "--color"
            path := positionals.head? }

/-- The local `print_color` closure: wrap the line in red ANSI codes when
`--color` was given. -/
def print_color (color : Bool) (s : String) : String :=
  if color then "\x1b[31m" ++ s ++ "\x1b[0m" else s

/-- The body of the inner `for change in line.get("changes", [])` loop:
accumulate the exit code and the printed report lines. -/
def process_change (opts : RemovedOptions) (path : String)
    (acc : Nat × List String) (change_type : String) : Nat × List String :=
  if change_type = "removed" then
    ((if opts.fail then 1 else acc.1),
     acc.2 ++ [print_color opts.color ("Removed file: " ++ path)])
  else if change_type = "removed directory" then
    ((if opts.fail then 1 else acc.1),
     acc.2 ++ [print_color opts.color ("Removed directory: " ++ path)])
  else
    acc

/-- Whether a change type triggers a report: `removed` or
`removed directory`. -/
def isRemovedType (change_type : String) : Bool :=
  change_type = "removed" || change_type = "removed directory"

/-- The report line one change entry produces, if any: `Removed file:`
for a `removed` change, `Removed directory:` for a `removed directory`
change, nothing otherwise. -/
def removedReportLine (color : Bool) (path change_type : String) : Option String :=
  if change_type = "removed" then
    some (print_color color ("Removed file: " ++ path))
  else if change_type = "removed directory" then
    some (print_color color ("Removed directory: " ++ path))
  else
    none

/-- The outer `for line in ... splitlines()` loop of `list-removed-items`. -/
def process_diff (opts : RemovedOptions) (entries : List DiffLine) :
    Nat × List String :=
  entries.foldl
    (fun acc line => line.changes.foldl (process_change opts line.path) acc)
    (0, [])

/-- The `list-removed-items` branch (lines 151–191): list the two most
recent archives (captured stdout, `check=True`), return 0 when fewer than
two exist, otherwise diff them (optionally limited to a path) and report
every removed file or directory.  The result carries the exit code and
the printed report lines. -/
def execute_list_removed_items (st : HelperState) (env0 : Dict String)
    (repository_name : String) (opts : RemovedOptions)
    (lastTwoCtx : CallCtx (List String)) (diffCtx : CallCtx (List DiffLine)) :
    Except Fault (Nat × List String) × List Invocation :=
  match execute_borg st env0 repository_name ["list", "--last", "2", "--json"]
      true lastTwoCtx with
  | (.error e, invs) => (.error e, invs)
  | (.ok none, invs) => (.ok (1, []), invs)
  | (.ok (some proc), invs) =>
    let archives := proc.stdout
    if archives.length < 2 then
      (.ok (0, []), invs)
    else
      let previous_backup := archives.getD 0 ""
      let current_backup := archives.getD 1 ""
      let diff_command :=
        ["diff", "--json-lines", "::" ++ previous_backup, current_backup] ++
          (match opts.path with | some p => [p] | none => [])
      match execute_borg st env0 repository_name diff_command true diffCtx with
      | (.error e, invs2) => (.error e, invs ++ invs2)
      | (.ok none, invs2) => (.ok (1, []), invs ++ invs2)
      | (.ok (some dproc), invs2) =>
        (.ok (process_diff opts dproc.stdout), invs ++ invs2)

/-- Everything the outside world contributes to one `execute_command`
run: one call context per dispatch the code can make. -/
structure Oracle where
  listShortCtx : CallCtx (List String)
  perArchiveCtx : String → CallCtx Unit
  lastTwoCtx : CallCtx (List String)
  diffCtx : CallCtx (List DiffLine)
  passCtx : CallCtx Unit

/-- `execute_custom_borg_command`: recognise `list-archives` and
`list-removed-items` by inspecting `arguments[0]`; any other (or empty)
argument list yields `None`.  For `list-removed-items` the subcommand's
own flags are parsed first (line 143), before any repository lookup or
dispatch, so an argparse exit pre-empts everything else. -/
def execute_custom_borg_command (st : HelperState) (env0 : Dict String)
    (repository_name : String) (arguments : List String) (o : Oracle) :
    Except Fault (Option Nat) × List Invocation :=
  match arguments with
  | [] => (.ok none, [])
  | custom_command :: rest =>
    if custom_command = "list-archives" then
      match execute_list_archives st env0 repository_name rest
          o.listShortCtx o.perArchiveCtx with
      | (.error e, invs) => (.error e, invs)
      | (.ok code, invs) => (.ok (some code), invs)
    else if custom_command = "list-removed-items" then
      match parse_removed_args rest with
      | .error code => (.error (.systemExit code), [])
      | .ok opts =>
        match execute_list_removed_items st env0 repository_name opts
            o.lastTwoCtx o.diffCtx with
        | (.error e, invs) => (.error e, invs)
        | (.ok r, invs) => (.ok (some r.1), invs)
    else
      (.ok none, [])

/-- `execute_command`: a recognised composite command's exit code is
authoritative; otherwise a plain pass-through dispatch, whose return code
is used, or 1 when the user aborted it. -/
def execute_command (st : HelperState) (env0 : Dict String)
    (repository_name : String) (arguments : List String) (o : Oracle) :
    Except Fault Nat × List Invocation :=
  match execute_custom_borg_command st env0 repository_name arguments o with
  | (.error e, invs) => (.error e, invs)
  | (.ok (some exit_code), invs) => (.ok exit_code, invs)
  | (.ok none, _) =>
    match execute_borg st env0 repository_name arguments false o.passCtx with
    | (.error e, invs) => (.error e, invs)
    | (.ok none, invs) => (.ok 1, invs)
    | (.ok (some p), invs) => (.ok p.returncode, invs)

/-- The `try`/`except ConfigError` block at the end of `main`
(lines 279–283): a `ConfigError` is logged to the diagnostic stream
(`logging.error`, format `"%(levelname)s %(message)s"`) and turned into
exit code 1; any other fault propagates uncaught.  The result carries the
exit code and the diagnostic lines produced by the handler. -/
def main_dispatch (st : HelperState) (env0 : Dict String)
    (repository_name : String) (arguments : List String) (o : Oracle) :
    Except Fault (Nat × List String) × List Invocation :=
  match execute_command st env0 repository_name arguments o with
  | (.ok exit_code, invs) => (.ok (exit_code, []), invs)
  | (.error (.configError msg), invs) => (.ok (1, ["ERROR " ++ msg]), invs)
  | (.error e, invs) => (.error e, invs)

/-- The uncaught `KeyError` a dict subscript can raise. -/
inductive KeyError where
  | keyError (key : String)
  deriving DecidableEq

/-- How a config value prints inside the `list` line (the schema makes
the `repository` field a string). -/
def renderValue : ConfigValue → String
  | .str s => s
  | .table _ => ""

/-- The body of the `for repository_name in sorted(repositories.keys())`
loop of the `list` subcommand: one output line
`"  name (target)"` per repository, where the target locator is read with
`repositories[repository_name]["repository"]` — a raising subscript. -/
def render_repo_lines (repos : Dict (Dict ConfigValue)) :
    List String → Except KeyError (List String)
  | [] => .ok []
  | n :: ns =>
    match dlookup "repository" ((dlookup n repos).getD []) with
    | none => .error (.keyError "repository")
    | some v =>
      (render_repo_lines repos ns).map
        (fun ls => ("  " ++ n ++ " (" ++ renderValue v ++ ")") :: ls)

/-- Lexicographic comparison of character lists by code point — the
ordering Python's `sorted` uses on strings. -/
def charListLe : List Char → List Char → Bool
  | [], _ => true
  | _ :: _, [] => false
  | c :: cs, d :: ds =>
    if c = d then charListLe cs ds else decide (c.toNat < d.toNat)

/-- Python `a <= b` on strings. -/
def pyStrLe (a b : String) : Bool :=
  charListLe a.toList b.toList

/-- Insert a string into an already sorted list. -/
def insertSorted (x : String) : List String → List String
  | [] => [x]
  | y :: ys => if pyStrLe x y then x :: y :: ys else y :: insertSorted x ys

/-- Python `sorted(...)` on a list of strings (insertion sort — same
sorted result as any stable sort under the total `pyStrLe` order). -/
def pySorted : List String → List String
  | [] => []
  | x :: xs => insertSorted x (pySorted xs)

/-- The `list` subcommand branch of `main` (lines 268–274): print the
header, then one line per repository in sorted name order, and return 0 —
unless a profile without a `repository` field makes the subscript raise. -/
def list_command (repos : Dict (Dict ConfigValue)) :
    Except KeyError (Nat × List String) :=
  match render_repo_lines repos (pySorted (repos.map Prod.fst)) with
  | .error e => .error e
  | .ok ls => .ok (0, "Available repositories:" :: ls)

/-- Decidable equality for `Except`, so that concrete dispatch results
can be compared by evaluation. -/
instance exceptDecEq {ε α : Type} [DecidableEq ε] [DecidableEq α] :
    DecidableEq (Except ε α) := fun x y =>
  match x, y with
  | .ok a, .ok b =>
    if h : a = b then isTrue (by rw [h])
    else isFalse (by intro hh; cases hh; exact h rfl)
  | .ok _, .error _ => isFalse (fun hh => Except.noConfusion hh)
  | .error _, .ok _ => isFalse (fun hh => Except.noConfusion hh)
  | .error e, .error f =>
    if h : e = f then isTrue (by rw [h])
    else isFalse (by intro hh; cases hh; exact h rfl)

/-! ## Concrete fixtures used by witnesses and counterexamples -/

/-- A concrete repository profile used in witnesses. -/
def demoCfg : Dict ConfigValue :=
  [("repository", ConfigValue.str "/mnt/backup"),
   ("aliases", ConfigValue.table [("backup", "create --stats ::daily .")])]

/-- A concrete helper state with one repository `r` and one global alias. -/
def demoState : HelperState :=
  { ask_before_execute := false
    borg_binary := "borg"
    repositories := [("r", demoCfg)]
    command_aliases := [("lst", "list --short")] }

/-- A config source that only sets `borg_binary` (to `borg-a`). -/
def srcA : ConfigFile :=
  { borg_binary := some "borg-a", aliases := [], repositories := [] }

/-- A config source that only sets `borg_binary` (to `borg-b`). -/
def srcB : ConfigFile :=
  { borg_binary := some "borg-b", aliases := [], repositories := [] }

/-- A config source touching only the repository name `p`. -/
def srcP : ConfigFile :=
  { borg_binary := none, aliases := []
    repositories := [("p", [("repository", ConfigValue.str "/p")])] }

/-- A config source touching only the repository name `q`. -/
def srcQ : ConfigFile :=
  { borg_binary := none, aliases := []
    repositories := [("q", [("repository", ConfigValue.str "/q")])] }

/-- An earlier config source touching `shared`, setting two fields. -/
def srcS1 : ConfigFile :=
  { borg_binary := none, aliases := []
    repositories := [("shared", [("repository", ConfigValue.str "/s1"),
                                 ("passphrase", ConfigValue.str "secret")])] }

/-- A later config source touching `shared`, overriding one field. -/
def srcS2 : ConfigFile :=
  { borg_binary := none, aliases := []
    repositories := [("shared", [("repository", ConfigValue.str "/s2")])] }

/-- `demoState` with the interactive confirmation flag enabled (`-i`). -/
def askState : HelperState :=
  { demoState with ask_before_execute := true }

/-- Per-archive contexts producing exit codes 0, 2 and 1 for the three
archives `a1`, `a2`, `a3`. -/
def fanoutCtx (archive : String) : CallCtx Unit :=
  if archive = "a2" then ⟨"", 2, ()⟩
  else if archive = "a3" then ⟨"", 1, ()⟩
  else ⟨"", 0, ()⟩

/-- An oracle whose every call succeeds with exit code 0 and empty output. -/
def trivialOracle : Oracle :=
  { listShortCtx := ⟨"", 0, []⟩
    perArchiveCtx := fun _ => ⟨"", 0, ()⟩
    lastTwoCtx := ⟨"", 0, []⟩
    diffCtx := ⟨"", 0, []⟩
    passCtx := ⟨"", 0, ()⟩ }

/-! ## Dictionary lemmas -/

theorem dlookup_append (k : String) (d1 d2 : Dict α) :
    dlookup k (d1 ++ d2) = (dlookup k d1).orElse (fun _ => dlookup k d2) := by
  induction d1 with
  | nil => simp [dlookup]
  | cons p rest ih =>
    by_cases h : p.1 = k
    · simp [dlookup, h, Option.orElse]
    · simp [dlookup, h, ih]

theorem any_key_eq_isSome (k1 : String) (d : Dict α) :
    d.any (fun p => p.1 = k1) = (dlookup k1 d).isSome := by
  induction d with
  | nil => simp [dlookup]
  | cons p rest ih =>
    by_cases hp : p.1 = k1
    · simp [dlookup, hp]
    · simp [dlookup, hp, ih]

theorem dlookup_overwrite_same (k1 : String) (v : α) (d : Dict α) :
    dlookup k1 (d.map (fun p => if p.1 = k1 then (k1, v) else p)) =
      (dlookup k1 d).map (fun _ => v) := by
  induction d with
  | nil => simp [dlookup]
  | cons p rest ih =>
    simp only [List.map_cons]
    by_cases hp : p.1 = k1
    · rw [if_pos hp]
      simp [dlookup, hp]
    · rw [if_neg hp]
      simp [dlookup, hp, ih]

theorem dlookup_overwrite_other (k k1 : String) (v : α) (d : Dict α)
    (hk : ¬ k1 = k) :
    dlookup k (d.map (fun p => if p.1 = k1 then (k1, v) else p)) =
      dlookup k d := by
  induction d with
  | nil => simp [dlookup]
  | cons p rest ih =>
    simp only [List.map_cons]
    by_cases hp : p.1 = k1
    · have hpk : ¬ p.1 = k := by rw [hp]; exact hk
      rw [if_pos hp]
      simp [dlookup, hk, hpk, ih]
    · rw [if_neg hp]
      by_cases hpk : p.1 = k
      · simp [dlookup, hpk]
      · simp [dlookup, hpk, ih]

theorem dlookup_dictSet (k k1 : String) (v : α) (d : Dict α) :
    dlookup k (dictSet d k1 v) = if k1 = k then some v else dlookup k d := by
  unfold dictSet
  cases hmem : d.any (fun p => p.1 = k1) with
  | true =>
    simp only [if_true]
    by_cases hk : k1 = k
    · subst hk
      rw [dlookup_overwrite_same]
      rw [any_key_eq_isSome] at hmem
      cases h : dlookup k1 d with
      | none => rw [h] at hmem; simp at hmem
      | some w => simp
    · rw [dlookup_overwrite_other k k1 v d hk]
      simp [hk]
  | false =>
    simp only [Bool.false_eq_true, if_false]
    rw [dlookup_append]
    by_cases hk : k1 = k
    · subst hk
      rw [any_key_eq_isSome] at hmem
      cases h : dlookup k1 d with
      | none => simp [h, dlookup, Option.orElse]
      | some w => rw [h] at hmem; simp at hmem
    · have h1 : dlookup k [(k1, v)] = none := by simp [dlookup, hk]
      rw [h1, if_neg hk]
      cases dlookup k d <;> simp [Option.orElse]

/-! ## Claim theorems -/

/-- Claim C1: `resolve_alias` returns the empty list on an empty argument
list; when `arguments[0]` is a key of the alias table it returns the
alias value split on single spaces concatenated with the remaining
arguments, without re-resolving the expansion; when it is not a key it
returns the arguments unchanged; and the two concrete examples of the
spec hold. -/
theorem C1_resolve_alias_contract :
    (∀ t : Dict String, resolve_alias [] t = []) ∧
    (∀ (a : String) (rest : List String) (t : Dict String) (v : String),
      dlookup a t = some v →
      resolve_alias (a :: rest) t = pySplitSpace v ++ rest) ∧
    (∀ (a : String) (rest : List String) (t : Dict String),
      dlookup a t = none →
      resolve_alias (a :: rest) t = a :: rest) ∧
    resolve_alias ["backup"] [("backup", "create --stats")] = ["create", "--stats"] ∧
    resolve_alias ["backup", "--dry-run"] [("backup", "create --stats")] =
      ["create", "--stats", "--dry-run"] := by
  refine ⟨fun _ => rfl, ?_, ?_, by decide, by decide⟩
  · intro a rest t v h
    simp [resolve_alias, h]
  · intro a rest t h
    simp [resolve_alias, h]

/-- Witness for C1 at a concrete input: the alias lookup hypothesis is
discharged by evaluation. -/
theorem C1_resolve_alias_contract_witness :
    dlookup "backup" [("backup", "create --stats")] = some "create --stats" ∧
    resolve_alias ["backup", "--dry-run"] [("backup", "create --stats")] =
      ["create", "--stats", "--dry-run"] :=
  ⟨by decide, by
    have h := C1_resolve_alias_contract.2.1 "backup" ["--dry-run"]
      [("backup", "create --stats")] "create --stats" (by decide)
    rw [h]
    rfl⟩

/-- Claim C10: a present-but-malformed config file aborts config loading
with the uncaught JSON decode fault, and no config source after it is
loaded (the overall result does not depend on the later sources). -/
theorem C10_malformed_config_fail_fast (st : HelperState)
    (pre post : List FileContent) :
    load_configs st (pre ++ FileContent.invalid :: post) =
        Except.error LoadFault.jsonDecodeError ∧
    load_configs st (pre ++ FileContent.invalid :: post) =
      load_configs st (pre ++ [FileContent.invalid]) := by
  induction pre generalizing st with
  | nil => exact ⟨rfl, rfl⟩
  | cons f fs ih =>
    cases f with
    | missing => simpa [load_configs, load_config] using ih st
    | invalid => simp [load_configs, load_config]
    | valid c => simpa [load_configs, load_config] using ih (applyConfig st c)

/-- Claim C4: every dispatch (`execute_borg` call) to a repository name
that is not configured raises `ConfigError` without performing any
subprocess invocation — unconditionally, for every argument list; and,
provided the argument list does not make the `list-removed-items`
argument parser exit first (argparse runs at line 143, before the
repository lookup), the whole command fails with that `ConfigError`, the
top-level handler reports it on the diagnostic stream, and the process
exits 1. -/
theorem C4_unknown_repository (st : HelperState) (env0 : Dict String)
    (name : String) (args : List String) (o : Oracle)
    (h : dlookup name st.repositories = none)
    (hargs : ∀ rest, args = "list-removed-items" :: rest →
      ∃ opts, parse_removed_args rest = Except.ok opts) :
    (∀ (σ : Type) (arguments : List String) (check : Bool) (ctx : CallCtx σ),
      execute_borg st env0 name arguments check ctx =
        (.error (.configError ("Unknown repository: " ++ name)), [])) ∧
    execute_command st env0 name args o =
      (.error (.configError ("Unknown repository: " ++ name)), []) ∧
    main_dispatch st env0 name args o =
      (.ok (1, ["ERROR " ++ ("Unknown repository: " ++ name)]), []) := by
  have hborg : ∀ (σ : Type) (arguments : List String) (check : Bool) (ctx : CallCtx σ),
      execute_borg st env0 name arguments check ctx =
        (.error (.configError ("Unknown repository: " ++ name)), []) := by
    intro σ arguments check ctx
    simp [execute_borg, h]
  have hcmd : execute_command st env0 name args o =
      (.error (.configError ("Unknown repository: " ++ name)), []) := by
    cases args with
    | nil =>
      simp [execute_command, execute_custom_borg_command, hborg]
    | cons a rest =>
      by_cases h1 : a = "list-archives"
      · simp [execute_command, execute_custom_borg_command, h1,
          execute_list_archives, hborg]
      · by_cases h2 : a = "list-removed-items"
        · obtain ⟨opts, hopts⟩ := hargs rest (by rw [h2])
          simp [execute_command, execute_custom_borg_command, h1, h2, hopts,
            execute_list_removed_items, hborg]
        · simp [execute_command, execute_custom_borg_command, h1, h2, hborg]
  exact ⟨hborg, hcmd, by simp [main_dispatch, hcmd]⟩

/-- Witness for C4 at a concrete input (whose arguments do not invoke the
`list-removed-items` parser, discharging that hypothesis vacuously). -/
theorem C4_unknown_repository_witness :
    dlookup "missing" initState.repositories = none ∧
    main_dispatch initState [] "missing" ["create"] trivialOracle =
      (.ok (1, ["ERROR " ++ ("Unknown repository: " ++ "missing")]), []) :=
  ⟨by decide,
   (C4_unknown_repository initState [] "missing" ["create"] trivialOracle
     (by decide)
     (by
       intro rest hr
       injection hr with hr1 hr2
       exact absurd hr1 (by decide))).2.2⟩

/-- Claim C8: a dispatch that is not aborted performs exactly one
subprocess invocation, whose command is the single string obtained by
joining the binary path and the resolved arguments with single spaces
(no per-argument quoting), run through a shell. -/
theorem C8_shell_single_string {σ : Type} (st : HelperState)
    (env0 : Dict String) (name : String) (args : List String) (check : Bool)
    (ctx : CallCtx σ) (cfg : Dict ConfigValue)
    (hrepo : dlookup name st.repositories = some cfg)
    (hnoabort : aborts st ctx.answer = false) :
    (execute_borg st env0 name args check ctx).2 =
      [{ command_line :=
           String.intercalate " " (st.borg_binary :: dispatch_arguments st cfg args)
         env := build_env env0 cfg
         shell := true }] := by
  simp only [execute_borg, hrepo, hnoabort, Bool.false_eq_true, if_false]
  split <;> simp [borgInvocation, commandLine]

/-- Witness for C8 at a concrete input. -/
theorem C8_shell_single_string_witness :
    dlookup "r" demoState.repositories = some demoCfg ∧
    aborts demoState "y" = false ∧
    (execute_borg demoState [] "r" ["backup"] false
        (⟨"y", 0, ()⟩ : CallCtx Unit)).2 =
      [{ command_line :=
           String.intercalate " "
             (demoState.borg_binary :: dispatch_arguments demoState demoCfg ["backup"])
         env := build_env [] demoCfg
         shell := true }] :=
  ⟨by decide, by decide,
   C8_shell_single_string demoState [] "r" ["backup"] false ⟨"y", 0, ()⟩ demoCfg
     (by decide) (by decide)⟩

/-- Claim C2: with a non-empty argument list, the arguments handed to the
external tool are the result of exactly one `resolve_alias` pass against
the repository's own alias table (empty when the profile has none)
followed by exactly one pass against the global alias table, and every
invocation a dispatch performs uses precisely that two-pass result. -/
theorem C2_two_resolution_passes {σ : Type} (st : HelperState)
    (env0 : Dict String) (name : String) (args : List String) (check : Bool)
    (ctx : CallCtx σ) (cfg : Dict ConfigValue)
    (hrepo : dlookup name st.repositories = some cfg)
    (hne : args ≠ []) :
    dispatch_arguments st cfg args =
      resolve_alias (resolve_alias args (configAliases cfg)) st.command_aliases ∧
    (dlookup "aliases" cfg = none → configAliases cfg = []) ∧
    (∀ inv ∈ (execute_borg st env0 name args check ctx).2,
      inv.command_line =
        String.intercalate " " (st.borg_binary ::
          resolve_alias (resolve_alias args (configAliases cfg)) st.command_aliases)) := by
  have hlen : args.length ≠ 0 := by
    cases args with
    | nil => exact absurd rfl hne
    | cons a rest => simp
  have hd : dispatch_arguments st cfg args =
      resolve_alias (resolve_alias args (configAliases cfg)) st.command_aliases := by
    simp [dispatch_arguments, hlen]
  refine ⟨hd, ?_, ?_⟩
  · intro hnone
    simp [configAliases, hnone]
  · intro inv hinv
    simp only [execute_borg, hrepo] at hinv
    by_cases hab : aborts st ctx.answer
    · simp [hab] at hinv
    · simp only [hab, Bool.false_eq_true, if_false] at hinv
      have hinv2 : inv = borgInvocation st env0 cfg args := by
        revert hinv
        split <;> simp
      rw [hinv2]
      simp [borgInvocation, commandLine, hd]

/-- Witness for C2 at a concrete input. -/
theorem C2_two_resolution_passes_witness :
    dlookup "r" demoState.repositories = some demoCfg ∧
    (["backup"] : List String) ≠ [] ∧
    dispatch_arguments demoState demoCfg ["backup"] =
      resolve_alias (resolve_alias ["backup"] (configAliases demoCfg))
        demoState.command_aliases :=
  ⟨by decide, by decide,
   (C2_two_resolution_passes demoState [] "r" ["backup"] false
     (⟨"y", 0, ()⟩ : CallCtx Unit) demoCfg (by decide) (by decide)).1⟩

/-- Claim C6 counterexample: with repository `r` configured, an
enumeration dispatch that runs and exits with code 1 does not make
`list-archives` return exit code 1 — the `check=True` call raises
`CalledProcessError`, which nothing catches. -/
theorem C6_counterexample :
    (execute_list_archives demoState [] "r" []
        (⟨"", 1, []⟩ : CallCtx (List String)) (fun _ => ⟨"", 0, ()⟩)).1 ≠
      Except.ok 1 := by
  decide

/-- Claim C6 (amended): in both composite commands, an enumeration
dispatch the user aborts makes the command return exit code 1; an
enumeration dispatch that runs and exits non-zero instead raises
`CalledProcessError` out of the composite command (uncaught). -/
theorem C6_enumeration_outcomes (st : HelperState) (env0 : Dict String)
    (name : String) (cfg : Dict ConfigValue) (extraArgs : List String)
    (opts : RemovedOptions) (listCtx lastTwoCtx : CallCtx (List String))
    (perCtx : String → CallCtx Unit) (diffCtx : CallCtx (List DiffLine))
    (hrepo : dlookup name st.repositories = some cfg) :
    (aborts st listCtx.answer = true →
      execute_list_archives st env0 name extraArgs listCtx perCtx = (.ok 1, [])) ∧
    (aborts st lastTwoCtx.answer = true →
      execute_list_removed_items st env0 name opts lastTwoCtx diffCtx =
        (.ok (1, []), [])) ∧
    (aborts st listCtx.answer = false → listCtx.returncode ≠ 0 →
      (execute_list_archives st env0 name extraArgs listCtx perCtx).1 =
        .error (.calledProcessError listCtx.returncode)) ∧
    (aborts st lastTwoCtx.answer = false → lastTwoCtx.returncode ≠ 0 →
      (execute_list_removed_items st env0 name opts lastTwoCtx diffCtx).1 =
        .error (.calledProcessError lastTwoCtx.returncode)) := by
  refine ⟨?_, ?_, ?_, ?_⟩
  · intro hab
    simp [execute_list_archives, execute_borg, hrepo, hab]
  · intro hab
    simp [execute_list_removed_items, execute_borg, hrepo, hab]
  · intro hab hrc
    simp [execute_list_archives, execute_borg, hrepo, hab, hrc]
  · intro hab hrc
    simp [execute_list_removed_items, execute_borg, hrepo, hab, hrc]

/-- Witness for C6 (amended) at concrete inputs: one aborted enumeration
and one failed enumeration. -/
theorem C6_enumeration_outcomes_witness :
    dlookup "r" askState.repositories = some demoCfg ∧
    aborts askState "n" = true ∧
    aborts askState "y" = false ∧ (1 : Nat) ≠ 0 ∧
    execute_list_archives askState [] "r" []
        (⟨"n", 0, []⟩ : CallCtx (List String)) (fun _ => ⟨"y", 0, ()⟩) = (.ok 1, []) ∧
    (execute_list_archives askState [] "r" []
        (⟨"y", 1, []⟩ : CallCtx (List String)) (fun _ => ⟨"y", 0, ()⟩)).1 =
      .error (.calledProcessError 1) :=
  ⟨by decide, by decide, by decide, by decide,
   (C6_enumeration_outcomes askState [] "r" demoCfg [] ⟨false, false, none⟩
     ⟨"n", 0, []⟩ ⟨"n", 0, []⟩ (fun _ => ⟨"y", 0, ()⟩) ⟨"y", 0, []⟩
     (by decide)).1 (by decide),
   (C6_enumeration_outcomes askState [] "r" demoCfg [] ⟨false, false, none⟩
     ⟨"y", 1, []⟩ ⟨"y", 1, []⟩ (fun _ => ⟨"y", 0, ()⟩) ⟨"y", 0, []⟩
     (by decide)).2.2.1 (by decide) (by decide)⟩

theorem init_le_foldl_max (l : List Nat) (a : Nat) : a ≤ l.foldl max a := by
  induction l generalizing a with
  | nil => simp
  | cons x xs ih => exact le_trans (Nat.le_max_left a x) (ih (max a x))

theorem mem_le_foldl_max (l : List Nat) (a c : Nat) (h : c ∈ l) :
    c ≤ l.foldl max a := by
  induction l generalizing a with
  | nil => simp at h
  | cons x xs ih =>
    rcases List.mem_cons.mp h with rfl | h2
    · exact le_trans (Nat.le_max_right a c) (init_le_foldl_max xs (max a c))
    · exact ih (max a x) h2

theorem foldl_max_cases (l : List Nat) (a : Nat) :
    l.foldl max a = a ∨ l.foldl max a ∈ l := by
  induction l generalizing a with
  | nil => simp
  | cons x xs ih =>
    rcases ih (max a x) with h | h
    · rcases max_choice a x with hax | hax
      · left
        simpa [hax] using h
      · right
        rw [List.foldl_cons, h, hax]
        exact List.mem_cons_self x xs
    · right
      exact List.mem_cons_of_mem x h

/-- The fan-out loop, in closed form: starting from highest code `h` and
invocation log `invs`, it returns the maximum of `h` and the return codes
of the non-aborted per-archive dispatches, and appends one invocation per
non-aborted archive, in listing order. -/
theorem list_archives_loop_spec (st : HelperState) (env0 : Dict String)
    (name : String) (extraArgs : List String) (perCtx : String → CallCtx Unit)
    (cfg : Dict ConfigValue) (hrepo : dlookup name st.repositories = some cfg)
    (archives : List String) (h : Nat) (invs : List Invocation) :
    list_archives_loop st env0 name extraArgs perCtx archives (.ok h, invs) =
      (.ok ((archiveCodes st perCtx archives).foldl max h),
       invs ++ (archives.filter (fun a => !(aborts st (perCtx a).answer))).map
         (fun a => borgInvocation st env0 cfg (["list", "::" ++ a] ++ extraArgs))) := by
  induction archives generalizing h invs with
  | nil => simp [list_archives_loop, archiveCodes]
  | cons a as ih =>
    by_cases hab : aborts st (perCtx a).answer
    · have step : list_archives_loop st env0 name extraArgs perCtx (a :: as) (.ok h, invs) =
          list_archives_loop st env0 name extraArgs perCtx as (.ok h, invs) := by
        simp [list_archives_loop, execute_borg, hrepo, hab]
      rw [step, ih]
      simp [archiveCodes, hab]
    · have step : list_archives_loop st env0 name extraArgs perCtx (a :: as) (.ok h, invs) =
          list_archives_loop st env0 name extraArgs perCtx as
            (.ok (max h (perCtx a).returncode),
             invs ++ [borgInvocation st env0 cfg (["list", "::" ++ a] ++ extraArgs)]) := by
        simp [list_archives_loop, execute_borg, hrepo, hab]
      rw [step, ih]
      simp [archiveCodes, hab]

/-- Claim C5: when the enumeration dispatch succeeds, `list-archives`
performs one per-archive dispatch per non-aborted archive in listing
order regardless of earlier exit codes, skips aborted dispatches, and
returns the fold of `max` over the observed codes starting at 0 — an
upper bound of every observed code that is itself 0 or one of the codes
(so: their maximum, or 0 when there are none). -/
theorem C5_list_archives_aggregation (st : HelperState) (env0 : Dict String)
    (name : String) (extraArgs : List String) (listCtx : CallCtx (List String))
    (perCtx : String → CallCtx Unit) (cfg : Dict ConfigValue)
    (archives : List String)
    (hrepo : dlookup name st.repositories = some cfg)
    (hnoabort : aborts st listCtx.answer = false)
    (hrc : listCtx.returncode = 0)
    (hout : listCtx.stdout = archives) :
    execute_list_archives st env0 name extraArgs listCtx perCtx =
      (.ok ((archiveCodes st perCtx archives).foldl max 0),
       borgInvocation st env0 cfg ["list", "--short"] ::
         (archives.filter (fun a => !(aborts st (perCtx a).answer))).map
           (fun a => borgInvocation st env0 cfg (["list", "::" ++ a] ++ extraArgs))) ∧
    (∀ c ∈ archiveCodes st perCtx archives,
      c ≤ (archiveCodes st perCtx archives).foldl max 0) ∧
    ((archiveCodes st perCtx archives).foldl max 0 = 0 ∨
      (archiveCodes st perCtx archives).foldl max 0 ∈ archiveCodes st perCtx archives) := by
  refine ⟨?_, fun c hc => mem_le_foldl_max _ 0 c hc, foldl_max_cases _ 0⟩
  have henum : execute_borg st env0 name ["list", "--short"] true listCtx =
      (.ok (some { returncode := listCtx.returncode, stdout := listCtx.stdout }),
       [borgInvocation st env0 cfg ["list", "--short"]]) := by
    simp [execute_borg, hrepo, hnoabort, hrc]
  simp only [execute_list_archives, henum, hout]
  rw [list_archives_loop_spec st env0 name extraArgs perCtx cfg hrepo archives 0
    [borgInvocation st env0 cfg ["list", "--short"]]]
  simp

/-- Witness for C5: per-archive exit codes `[0, 2, 1]` yield exit code 2,
with all three per-archive dispatches attempted after the enumeration. -/
theorem C5_list_archives_aggregation_witness :
    dlookup "r" demoState.repositories = some demoCfg ∧
    aborts demoState "" = false ∧
    (execute_list_archives demoState [] "r" []
        (⟨"", 0, ["a1", "a2", "a3"]⟩ : CallCtx (List String)) fanoutCtx).1 =
      .ok 2 := by
  refine ⟨by decide, by decide, ?_⟩
  have h := (C5_list_archives_aggregation demoState [] "r" []
    ⟨"", 0, ["a1", "a2", "a3"]⟩ fanoutCtx demoCfg ["a1", "a2", "a3"]
    (by decide) (by decide) (by decide) (by decide)).1
  rw [h]
  decide

/-- The inner change loop, in closed form: the exit code becomes 1
exactly when `--fail` is set and some change is a removal, and one report
line is appended per removal, in order. -/
theorem process_change_foldl_spec (opts : RemovedOptions) (path : String)
    (changes : List String) (e0 : Nat) (ls0 : List String) :
    changes.foldl (process_change opts path) (e0, ls0) =
      ((if opts.fail && changes.any isRemovedType then 1 else e0),
       ls0 ++ changes.filterMap (removedReportLine opts.color path)) := by
  induction changes generalizing e0 ls0 with
  | nil => simp
  | cons t rest ih =>
    by_cases h1 : t = "removed"
    · rw [List.foldl_cons]
      have hstep : process_change opts path (e0, ls0) t =
          ((if opts.fail then 1 else e0),
           ls0 ++ [print_color opts.color ("Removed file: " ++ path)]) := by
        simp [process_change, h1]
      rw [hstep, ih]
      cases hf : opts.fail <;>
        simp [isRemovedType, removedReportLine, h1, hf]
    · by_cases h2 : t = "removed directory"
      · rw [List.foldl_cons]
        have hstep : process_change opts path (e0, ls0) t =
            ((if opts.fail then 1 else e0),
             ls0 ++ [print_color opts.color ("Removed directory: " ++ path)]) := by
          simp [process_change, h1, h2]
        rw [hstep, ih]
        cases hf : opts.fail <;>
          simp [isRemovedType, removedReportLine, h1, h2, hf]
      · rw [List.foldl_cons]
        have hstep : process_change opts path (e0, ls0) t = (e0, ls0) := by
          simp [process_change, h1, h2]
        rw [hstep, ih]
        simp [isRemovedType, removedReportLine, h1, h2]

/-- `process_diff`, in closed form. -/
theorem process_diff_spec (opts : RemovedOptions) (entries : List DiffLine) :
    process_diff opts entries =
      ((if opts.fail && entries.any (fun e => e.changes.any isRemovedType)
        then 1 else 0),
       entries.flatMap (fun e =>
         e.changes.filterMap (removedReportLine opts.color e.path))) := by
  suffices h : ∀ (e0 : Nat) (ls0 : List String),
      entries.foldl
        (fun acc line => line.changes.foldl (process_change opts line.path) acc)
        (e0, ls0) =
      ((if opts.fail && entries.any (fun e => e.changes.any isRemovedType)
        then 1 else e0),
       ls0 ++ entries.flatMap (fun e =>
         e.changes.filterMap (removedReportLine opts.color e.path))) by
    simpa [process_diff] using h 0 []
  induction entries with
  | nil => simp
  | cons line rest ih =>
    intro e0 ls0
    rw [List.foldl_cons, process_change_foldl_spec, ih]
    cases hf : opts.fail <;>
      by_cases hany : line.changes.any isRemovedType <;>
        simp [hf, hany, List.append_assoc]

/-- Claim C7: when both dispatches of `list-removed-items` succeed, one
report line is printed per `removed` or `removed directory` change entry
(naming the path and the category), the exit code is 0 when `--fail` is
not set, and any single removal with `--fail` set makes the exit code 1
(it never resets to 0). -/
theorem C7_removed_items_report (st : HelperState) (env0 : Dict String)
    (name : String) (cfg : Dict ConfigValue) (opts : RemovedOptions)
    (lastTwoCtx : CallCtx (List String)) (diffCtx : CallCtx (List DiffLine))
    (entries : List DiffLine)
    (hrepo : dlookup name st.repositories = some cfg)
    (h1 : aborts st lastTwoCtx.answer = false)
    (h2 : lastTwoCtx.returncode = 0)
    (h4 : 2 ≤ lastTwoCtx.stdout.length)
    (h5 : aborts st diffCtx.answer = false)
    (h6 : diffCtx.returncode = 0)
    (h7 : diffCtx.stdout = entries) :
    (execute_list_removed_items st env0 name opts lastTwoCtx diffCtx).1 =
      .ok ((if opts.fail && entries.any (fun e => e.changes.any isRemovedType)
            then 1 else 0),
           entries.flatMap (fun e =>
             e.changes.filterMap (removedReportLine opts.color e.path))) ∧
    (opts.fail = false →
      (execute_list_removed_items st env0 name opts lastTwoCtx diffCtx).1 =
        .ok (0, entries.flatMap (fun e =>
          e.changes.filterMap (removedReportLine opts.color e.path)))) ∧
    (opts.fail = true →
      entries.any (fun e => e.changes.any isRemovedType) = true →
      (execute_list_removed_items st env0 name opts lastTwoCtx diffCtx).1 =
        .ok (1, entries.flatMap (fun e =>
          e.changes.filterMap (removedReportLine opts.color e.path)))) := by
  have hmain : (execute_list_removed_items st env0 name opts lastTwoCtx diffCtx).1 =
      .ok ((if opts.fail && entries.any (fun e => e.changes.any isRemovedType)
            then 1 else 0),
           entries.flatMap (fun e =>
             e.changes.filterMap (removedReportLine opts.color e.path))) := by
    have henum : execute_borg st env0 name ["list", "--last", "2", "--json"]
        true lastTwoCtx =
        (.ok (some { returncode := lastTwoCtx.returncode, stdout := lastTwoCtx.stdout }),
         [borgInvocation st env0 cfg ["list", "--last", "2", "--json"]]) := by
      simp [execute_borg, hrepo, h1, h2]
    have hlen : ¬ lastTwoCtx.stdout.length < 2 := Nat.not_lt.mpr h4
    have hdiff : ∀ dc : List String,
        execute_borg st env0 name dc true diffCtx =
        (.ok (some { returncode := diffCtx.returncode, stdout := diffCtx.stdout }),
         [borgInvocation st env0 cfg dc]) := by
      intro dc
      simp [execute_borg, hrepo, h5, h6]
    simp only [execute_list_removed_items, henum, hlen, if_false, hdiff, h7]
    rw [process_diff_spec]
  refine ⟨hmain, ?_, ?_⟩
  · intro hf
    rw [hmain, hf]
    simp
  · intro hf hany
    rw [hmain, hf, hany]
    simp

/-- Witness for C7: a diff with one `removed` entry prints one report
line; exit code 0 without `--fail`, 1 with `--fail`. -/
theorem C7_removed_items_report_witness :
    dlookup "r" demoState.repositories = some demoCfg ∧
    aborts demoState "" = false ∧
    (2 : Nat) ≤ (["t1", "t2"] : List String).length ∧
    (execute_list_removed_items demoState [] "r" ⟨false, false, none⟩
        (⟨"", 0, ["t1", "t2"]⟩ : CallCtx (List String))
        (⟨"", 0, [⟨"home/x.txt", ["removed"]⟩]⟩ : CallCtx (List DiffLine))).1 =
      .ok (0, ["Removed file: home/x.txt"]) ∧
    (execute_list_removed_items demoState [] "r" ⟨true, false, none⟩
        (⟨"", 0, ["t1", "t2"]⟩ : CallCtx (List String))
        (⟨"", 0, [⟨"home/x.txt", ["removed"]⟩]⟩ : CallCtx (List DiffLine))).1 =
      .ok (1, ["Removed file: home/x.txt"]) := by
  refine ⟨by decide, by decide, by decide, ?_, ?_⟩
  · have h := ((C7_removed_items_report demoState [] "r" demoCfg ⟨false, false, none⟩
      ⟨"", 0, ["t1", "t2"]⟩ ⟨"", 0, [⟨"home/x.txt", ["removed"]⟩]⟩
      [⟨"home/x.txt", ["removed"]⟩]
      (by decide) (by decide) (by decide) (by decide) (by decide) (by decide)
      (by decide)).2.1) (by decide)
    rw [h]
    decide
  · have h := ((C7_removed_items_report demoState [] "r" demoCfg ⟨true, false, none⟩
      ⟨"", 0, ["t1", "t2"]⟩ ⟨"", 0, [⟨"home/x.txt", ["removed"]⟩]⟩
      [⟨"home/x.txt", ["removed"]⟩]
      (by decide) (by decide) (by decide) (by decide) (by decide) (by decide)
      (by decide)).2.2) (by decide) (by decide)
    rw [h]
    decide

theorem mem_insertSorted (x a : String) (l : List String) :
    a ∈ insertSorted x l ↔ a = x ∨ a ∈ l := by
  induction l with
  | nil => simp [insertSorted]
  | cons y ys ih =>
    by_cases h : pyStrLe x y
    · simp [insertSorted, h]
    · simp [insertSorted, h, ih]
      tauto

theorem mem_pySorted (a : String) (l : List String) :
    a ∈ pySorted l ↔ a ∈ l := by
  induction l with
  | nil => simp [pySorted]
  | cons x xs ih =>
    simp [pySorted, mem_insertSorted, ih]

theorem dlookup_mem_keys (n : String) (d : Dict α) (v : α)
    (h : dlookup n d = some v) : n ∈ d.map Prod.fst := by
  induction d with
  | nil => simp [dlookup] at h
  | cons p rest ih =>
    by_cases hp : p.1 = n
    · simp [hp]
    · simp only [dlookup, if_neg hp] at h
      simpa using Or.inr (ih h)

/-- If some listed name's profile lacks the `repository` field, the
rendering loop raises. -/
theorem render_repo_lines_error (repos : Dict (Dict ConfigValue))
    (ns : List String) (name : String) (cfg : Dict ConfigValue)
    (hmem : name ∈ ns)
    (hname : dlookup name repos = some cfg)
    (hfield : dlookup "repository" cfg = none) :
    ∃ e, render_repo_lines repos ns = .error e := by
  induction ns with
  | nil => simp at hmem
  | cons n rest ih =>
    by_cases hn : n = name
    · subst hn
      refine ⟨.keyError "repository", ?_⟩
      simp [render_repo_lines, hname, hfield]
    · have h : name ∈ rest := by
        rcases List.mem_cons.mp hmem with h | h
        · exact absurd h.symm hn
        · exact h
      cases hcase : dlookup "repository" ((dlookup n repos).getD []) with
      | none => exact ⟨.keyError "repository", by simp [render_repo_lines, hcase]⟩
      | some v =>
        rcases ih h with ⟨e, he⟩
        exact ⟨e, by simp [render_repo_lines, hcase, he, Except.map]⟩

/-- Claim C9: if any repository profile exists without a `repository`
field, the `list` subcommand raises an uncaught `KeyError` instead of
returning exit code 0 with its output. -/
theorem C9_list_missing_repository_field (repos : Dict (Dict ConfigValue))
    (name : String) (cfg : Dict ConfigValue)
    (hname : dlookup name repos = some cfg)
    (hfield : dlookup "repository" cfg = none) :
    (∃ e, list_command repos = .error e) ∧
    ∀ out, list_command repos ≠ .ok out := by
  have hmem : name ∈ pySorted (repos.map Prod.fst) :=
    (mem_pySorted name _).mpr (dlookup_mem_keys name repos cfg hname)
  rcases render_repo_lines_error repos (pySorted (repos.map Prod.fst)) name cfg
    hmem hname hfield with ⟨e, he⟩
  refine ⟨⟨e, by simp [list_command, he]⟩, ?_⟩
  intro out hout
  rw [list_command, he] at hout
  exact Except.noConfusion hout

/-- Witness for C9: one repository configured as an empty profile. -/
theorem C9_list_missing_repository_field_witness :
    dlookup "broken" [("broken", ([] : Dict ConfigValue))] = some [] ∧
    dlookup "repository" ([] : Dict ConfigValue) = none ∧
    ∃ e, list_command [("broken", [])] = .error e :=
  ⟨by decide, by decide,
   (C9_list_missing_repository_field [("broken", [])] "broken" []
     (by decide) (by decide)).1⟩

/-- `load_configs` over files that all exist and parse is `apply_configs`. -/
theorem load_configs_valid (st : HelperState) (cs : List ConfigFile) :
    load_configs st (cs.map FileContent.valid) = .ok (apply_configs st cs) := by
  induction cs generalizing st with
  | nil => rfl
  | cons c rest ih =>
    simpa [load_configs, load_config, apply_configs] using ih (applyConfig st c)

theorem repositories_add_alias_fold (st : HelperState)
    (al : Dict String) :
    (al.foldl (fun s p => add_alias s p.1 p.2) st).repositories =
      st.repositories := by
  induction al generalizing st with
  | nil => rfl
  | cons p rest ih => simpa [add_alias] using ih { st with
      command_aliases := dictSet st.command_aliases p.1 p.2 }

theorem dlookup_add_repository_fold (st : HelperState)
    (entries : Dict (Dict ConfigValue)) (n : String) :
    dlookup n (entries.foldl (fun s p => add_repository s p.1 p.2) st).repositories =
      applyEntriesAt entries n (dlookup n st.repositories) := by
  induction entries generalizing st with
  | nil => rfl
  | cons p rest ih =>
    rw [List.foldl_cons, ih]
    have hrepo : dlookup n (add_repository st p.1 p.2).repositories =
        if p.1 = n then
          some (dictUpdate ((dlookup n st.repositories).getD []) p.2)
        else dlookup n st.repositories := by
      rw [add_repository]
      simp only [dlookup_dictSet]
      by_cases hp : p.1 = n
      · rw [if_pos hp, if_pos hp, hp]
      · rw [if_neg hp, if_neg hp]
    rw [hrepo]
    simp only [applyEntriesAt, List.foldl_cons]

/-- The repository table a source produces at a name depends only on that
name's previous profile. -/
theorem dlookup_applyConfig (st : HelperState) (c : ConfigFile) (n : String) :
    dlookup n (applyConfig st c).repositories =
      applyEntriesAt c.repositories n (dlookup n st.repositories) := by
  rw [applyConfig]
  cases c.borg_binary with
  | none =>
    simp only
    rw [dlookup_add_repository_fold, repositories_add_alias_fold]
  | some b =>
    simp only
    rw [dlookup_add_repository_fold, repositories_add_alias_fold]

/-- The repository profile under `n` after a load sequence is the fold of
each source's per-name effect over the initial profile. -/
theorem dlookup_apply_configs (st : HelperState) (cs : List ConfigFile)
    (n : String) :
    dlookup n (apply_configs st cs).repositories =
      cs.foldl (fun o c => applyEntriesAt c.repositories n o)
        (dlookup n st.repositories) := by
  induction cs generalizing st with
  | nil => rfl
  | cons c rest ih =>
    rw [apply_configs, List.foldl_cons, List.foldl_cons, ← dlookup_applyConfig]
    exact ih (applyConfig st c)

theorem applyEntriesAt_not_mem (entries : Dict (Dict ConfigValue))
    (n : String) (o : Option (Dict ConfigValue))
    (h : n ∉ entries.map Prod.fst) :
    applyEntriesAt entries n o = o := by
  induction entries generalizing o with
  | nil => rfl
  | cons p rest ih =>
    simp only [List.map_cons, List.mem_cons, not_or] at h
    rw [applyEntriesAt, List.foldl_cons, if_neg (fun hh => h.1 hh.symm)]
    exact ih o h.2

theorem not_mem_keys_dlookup (n : String) (d : Dict α)
    (h : n ∉ d.map Prod.fst) : dlookup n d = none := by
  induction d with
  | nil => rfl
  | cons p rest ih =>
    simp only [List.map_cons, List.mem_cons, not_or] at h
    rw [dlookup, if_neg (fun hh => h.1 hh.symm)]
    exact ih h.2

theorem applyEntriesAt_lookup (entries : Dict (Dict ConfigValue))
    (n : String) (cfg : Dict ConfigValue) (o : Option (Dict ConfigValue))
    (hnodup : (entries.map Prod.fst).Nodup)
    (h : dlookup n entries = some cfg) :
    applyEntriesAt entries n o = some (dictUpdate (o.getD []) cfg) := by
  induction entries generalizing o with
  | nil => simp [dlookup] at h
  | cons p rest ih =>
    simp only [List.map_cons, List.nodup_cons] at hnodup
    by_cases hp : p.1 = n
    · rw [dlookup, if_pos hp] at h
      cases h
      rw [applyEntriesAt, List.foldl_cons, if_pos hp]
      have hnot : n ∉ rest.map Prod.fst := hp ▸ hnodup.1
      exact applyEntriesAt_not_mem rest n _ hnot
    · rw [dlookup, if_neg hp] at h
      rw [applyEntriesAt, List.foldl_cons, if_neg hp]
      exact ih o hnodup.2 h

/-- Field lookup after a `dict.update` with unique update keys: the
update wins where it sets a field, otherwise the old value remains. -/
theorem dlookup_dictUpdate (d cfg : Dict ConfigValue) (f : String)
    (hnodup : (cfg.map Prod.fst).Nodup) :
    dlookup f (dictUpdate d cfg) =
      (dlookup f cfg).orElse (fun _ => dlookup f d) := by
  induction cfg generalizing d with
  | nil => simp [dictUpdate, dlookup, Option.orElse]
  | cons p rest ih =>
    simp only [List.map_cons, List.nodup_cons] at hnodup
    rw [dictUpdate, List.foldl_cons]
    have step : rest.foldl (fun acc q => dictSet acc q.1 q.2) (dictSet d p.1 p.2) =
        dictUpdate (dictSet d p.1 p.2) rest := rfl
    rw [step, ih (dictSet d p.1 p.2) hnodup.2]
    by_cases hp : p.1 = f
    · have hnone : dlookup f rest = none :=
        not_mem_keys_dlookup f rest (hp ▸ hnodup.1)
      rw [hnone, dlookup, if_pos hp, dlookup_dictSet, if_pos hp]
      simp [Option.orElse]
    · rw [dlookup, if_neg hp, dlookup_dictSet, if_neg hp]

/-- Claim C3 counterexample: two config sources with disjoint (here
empty) repository-name sets whose re-ordering changes the final state:
both set `borg_binary`, and the later one wins. -/
theorem C3_counterexample :
    ((repoNames srcA).all (fun x => !(repoNames srcB).contains x)) = true ∧
    apply_configs initState [srcA, srcB] ≠ apply_configs initState [srcB, srcA] := by
  refine ⟨by decide, ?_⟩
  intro h
  have hb := congrArg HelperState.borg_binary h
  have h1 : (apply_configs initState [srcA, srcB]).borg_binary = "borg-b" := by decide
  have h2 : (apply_configs initState [srcB, srcA]).borg_binary = "borg-a" := by decide
  rw [h1, h2] at hb
  exact absurd hb (by decide)

/-- Claim C3 (amended): re-ordering two adjacent config sources that
touch disjoint repository names leaves the final repository table
unchanged (pointwise) — though the binary-path and global-alias
components may still depend on the order; and when both sources touch a
name, the later-in-order source wins for every profile field it sets,
fields set only by the earlier source are preserved, and fields set by
neither keep their prior value. -/
theorem C3_merge_order (st : HelperState) :
    (∀ (pre post : List ConfigFile) (a b : ConfigFile),
      (∀ x, x ∈ repoNames a → x ∉ repoNames b) →
      ∀ n, dlookup n (apply_configs st (pre ++ a :: b :: post)).repositories =
        dlookup n (apply_configs st (pre ++ b :: a :: post)).repositories) ∧
    (∀ (a b : ConfigFile) (n : String) (cfgA cfgB : Dict ConfigValue) (f : String),
      (a.repositories.map Prod.fst).Nodup →
      (b.repositories.map Prod.fst).Nodup →
      (cfgA.map Prod.fst).Nodup →
      (cfgB.map Prod.fst).Nodup →
      dlookup n a.repositories = some cfgA →
      dlookup n b.repositories = some cfgB →
      ∃ prof, dlookup n (apply_configs st [a, b]).repositories = some prof ∧
        (∀ v, dlookup f cfgB = some v → dlookup f prof = some v) ∧
        (dlookup f cfgB = none → ∀ v, dlookup f cfgA = some v →
          dlookup f prof = some v) ∧
        (dlookup f cfgB = none → dlookup f cfgA = none →
          dlookup f prof =
            dlookup f (((dlookup n st.repositories).getD []) : Dict ConfigValue))) := by
  constructor
  · intro pre post a b hdisj n
    rw [dlookup_apply_configs, dlookup_apply_configs]
    rw [List.foldl_append, List.foldl_append, List.foldl_cons, List.foldl_cons,
      List.foldl_cons, List.foldl_cons]
    congr 1
    set o := List.foldl (fun o c => applyEntriesAt c.repositories n o)
      (dlookup n st.repositories) pre with ho
    by_cases hmem : n ∈ repoNames a
    · have hnb : n ∉ repoNames b := hdisj n hmem
      rw [applyEntriesAt_not_mem b.repositories n _ hnb,
        applyEntriesAt_not_mem b.repositories n o hnb]
    · rw [applyEntriesAt_not_mem a.repositories n o hmem,
        applyEntriesAt_not_mem a.repositories n _ hmem]
  · intro a b n cfgA cfgB f hna hnb hncA hncB hla hlb
    have hstep : dlookup n (apply_configs st [a, b]).repositories =
        some (dictUpdate (dictUpdate ((dlookup n st.repositories).getD []) cfgA)
          cfgB) := by
      rw [dlookup_apply_configs, List.foldl_cons, List.foldl_cons, List.foldl_nil]
      rw [applyEntriesAt_lookup a.repositories n cfgA _ hna hla]
      rw [applyEntriesAt_lookup b.repositories n cfgB _ hnb hlb]
      rfl
    refine ⟨_, hstep, ?_, ?_, ?_⟩
    · intro v hv
      rw [dlookup_dictUpdate _ cfgB f hncB, hv]
      rfl
    · intro hB v hv
      rw [dlookup_dictUpdate _ cfgB f hncB, hB,
        dlookup_dictUpdate _ cfgA f hncA, hv]
      rfl
    · intro hB hA
      rw [dlookup_dictUpdate _ cfgB f hncB, hB,
        dlookup_dictUpdate _ cfgA f hncA, hA]
      rfl

/-- Witness for C3 (amended): re-ordering the disjoint sources `srcP` and
`srcQ` leaves the repository table unchanged at `p`, and for the name
`shared`, touched by `srcS1` then `srcS2`, the later source's
`repository` field wins while the earlier source's `passphrase` field is
preserved. -/
theorem C3_merge_order_witness :
    (∀ x, x ∈ repoNames srcP → x ∉ repoNames srcQ) ∧
    dlookup "p" (apply_configs initState [srcP, srcQ]).repositories =
      dlookup "p" (apply_configs initState [srcQ, srcP]).repositories ∧
    (∃ prof,
      dlookup "shared" (apply_configs initState [srcS1, srcS2]).repositories =
        some prof ∧
      dlookup "repository" prof = some (ConfigValue.str "/s2") ∧
      dlookup "passphrase" prof = some (ConfigValue.str "secret")) := by
  have hdisj : ∀ x, x ∈ repoNames srcP → x ∉ repoNames srcQ := by
    intro x hx
    have : x = "p" := by simpa [srcP, repoNames] using hx
    subst this
    decide
  refine ⟨hdisj, ?_, ?_⟩
  · have h := ((C3_merge_order initState).1 [] [] srcP srcQ hdisj) "p"
    simpa using h
  · rcases (C3_merge_order initState).2 srcS1 srcS2 "shared"
      [("repository", ConfigValue.str "/s1"), ("passphrase", ConfigValue.str "secret")]
      [("repository", ConfigValue.str "/s2")] "repository"
      (by decide) (by decide) (by decide) (by decide) (by decide) (by decide)
      with ⟨prof, hprof, hwin, _hpres, _hkeep⟩
    rcases (C3_merge_order initState).2 srcS1 srcS2 "shared"
      [("repository", ConfigValue.str "/s1"), ("passphrase", ConfigValue.str "secret")]
      [("repository", ConfigValue.str "/s2")] "passphrase"
      (by decide) (by decide) (by decide) (by decide) (by decide) (by decide)
      with ⟨prof2, hprof2, _hwin2, hpres2, _hkeep2⟩
    have hsame : prof2 = prof := by
      have := hprof2.symm.trans hprof
      exact Option.some.inj this
    refine ⟨prof, hprof, hwin (ConfigValue.str "/s2") (by decide), ?_⟩
    have hp2 : dlookup "passphrase" prof2 = some (ConfigValue.str "secret") :=
      hpres2 (by decide) (ConfigValue.str "secret") (by decide)
    rw [← hsame]
    exact hp2

end BorgHelper
